import Mathlib

/-!
Shallow embedding of the device-management core of the `alto` OpenAL wrapper
(`src/alc.rs`): the version gate, the error translator, the enumeration-spec
parser, the device open flows and the device drop behaviour.  Native calls are
modelled by passing the values the native API would return as explicit
arguments, and by recording the native calls an operation performs as an
explicit event trace.
-/

set_option autoImplicit false

/-- Modelled from the spec: the nested audio-rendering-domain error type
(`AlError`, defined in the excluded rendering layer `al.rs`); this core never
examines its members, so only a representative set of constructors is given. -/
inductive AlError
| invalidName
| invalidEnum
| invalidValue
| invalidOperation
| outOfMemory
deriving DecidableEq, Repr

/-- The error enumeration of `alc.rs` (`pub enum AlcError`). -/
inductive AlcError
| InvalidDevice
| InvalidContext
| InvalidEnum
| InvalidValue
| OutOfMemory
| UnsupportedVersion
| ExtensionNotPresent
| Al (e : AlError)
| UnknownError
deriving DecidableEq, Repr

/-- Mirrors `pub type AlcResult<T> = Result<T, AlcError>`. -/
abbrev AlcResult (α : Type) := Except AlcError α

/-- Embedding of `impl From<AlError> for AlcError`, whose body is `panic!()`:
the conversion never produces a value, which we model as `none` (panic). -/
def from_AlError : AlError → Option AlcError := fun _ => none

/-- Modelled from the spec: numeric values of the native `sys` constants used by
`get_error` and `From<sys::ALCenum>`; the `sys` crate is the fixed external
contract of the native API and is not part of `src/`. -/
def ALC_NO_ERROR : Int := 0

/-- Native error code for an invalid device. -/
def ALC_INVALID_DEVICE : Int := 0xA001

/-- Native error code for an invalid context. -/
def ALC_INVALID_CONTEXT : Int := 0xA002

/-- Native error code for an invalid enum. -/
def ALC_INVALID_ENUM : Int := 0xA003

/-- Native error code for an invalid value. -/
def ALC_INVALID_VALUE : Int := 0xA004

/-- Native error code for out-of-memory. -/
def ALC_OUT_OF_MEMORY : Int := 0xA005

/-- Embedding of `impl From<sys::ALCenum> for AlcError`: the match over the
five recognized codes with a `_ => UnknownError` fallback. -/
def alcError_of_enum (al : Int) : AlcError :=
  if al = ALC_INVALID_DEVICE then AlcError.InvalidDevice
  else if al = ALC_INVALID_CONTEXT then AlcError.InvalidContext
  else if al = ALC_INVALID_ENUM then AlcError.InvalidEnum
  else if al = ALC_INVALID_VALUE then AlcError.InvalidValue
  else if al = ALC_OUT_OF_MEMORY then AlcError.OutOfMemory
  else AlcError.UnknownError

/-- Embedding of `fn get_error(dev)`: `code` is the value the native
`alcGetError` call returned. -/
def get_error (code : Int) : AlcResult Unit :=
  if code = ALC_NO_ERROR then Except.ok () else Except.error (alcError_of_enum code)

/-- Embedding of the body of the `ALC_INIT` lazy static: `major` and `minor`
are the values the two native `alcGetIntegerv` queries wrote. -/
def alc_init_compute (major minor : Int) : AlcResult Unit :=
  if major = 1 ∧ 1 ≤ minor then Except.ok () else Except.error AlcError.UnsupportedVersion

/-- Embedding of one access to the `lazy_static!` cell holding `ALC_INIT`:
given the cell's state (`none` = not yet initialized) and the versions the
native API would report now, returns the value the access observes, the new
cell state, and whether the native API was queried by this access. -/
def initAccess (cell : Option (AlcResult Unit)) (major minor : Int) :
    AlcResult Unit × Option (AlcResult Unit) × Bool :=
  match cell with
  | some v => (v, some v, false)
  | none => (alc_init_compute major minor, some (alc_init_compute major minor), true)

/-- Embedding of the scan loop of `parse_enum_spec`: index of the first
position `i` with `buf[i] = 0` and `buf[i+1] = 0`, or `none` when the buffer
holds no double-zero terminator (the raw scan would run past the end). -/
def findTerminator : List Nat → Option Nat
  | [] => none
  | [_] => none
  | a :: b :: rest =>
      if a = 0 ∧ b = 0 then some 0
      else (findTerminator (b :: rest)).map (fun n => n + 1)

/-- Embedding of Rust `slice::split(|c| *c == 0)`: splits on zero bytes, always
yielding at least one (possibly empty) piece. -/
def splitOnZero : List Nat → List (List Nat)
  | [] => [[]]
  | c :: rest =>
      if c = 0 then [] :: splitOnZero rest
      else
        match splitOnZero rest with
        | [] => [[c]]
        | p :: ps => (c :: p) :: ps

/-- Embedding of `CString::new(d).unwrap()`: `CString::new` fails on an
interior zero byte, and the `unwrap` then panics (`none`). -/
def cstring_new (d : List Nat) : Option (List Nat) :=
  if 0 ∈ d then none else some d

/-- Collects the `CString::new(..).unwrap()` conversions over the split pieces;
`none` when any conversion panics. -/
def collectSpecs : List (List Nat) → Option (List (List Nat))
  | [] => some []
  | d :: ds =>
      match cstring_new d, collectSpecs ds with
      | some c, some cs => some (c :: cs)
      | _, _ => none

/-- Embedding of `fn parse_enum_spec(spec: *const u8)`: gate check, terminator
scan, split on zero bytes, `CString` conversion.  `none` models an execution
that does not return normally (unterminated scan or a panicking `unwrap`). -/
def parse_enum_spec (init : AlcResult Unit) (buf : List Nat) :
    Option (AlcResult (List (List Nat))) :=
  match init with
  | Except.error e => some (Except.error e)
  | Except.ok () =>
      match findTerminator buf with
      | none => none
      | some i => (collectSpecs (splitOnZero (buf.take i))).map Except.ok

/-- Joining a sequence of specifier strings with single zero-byte separators
(the inverse direction of `splitOnZero`, used to state the round-trip claim). -/
def joinSpecs : List (List Nat) → List Nat
  | [] => []
  | [s] => s
  | s :: t :: ss => s ++ 0 :: joinSpecs (t :: ss)

/-- Native calls an operation of this module can issue; a trace of these is
returned alongside each operation's result. -/
inductive NEvent
| getString (param : Int)
| getError
| openDevice (spec : Option (List Nat))
| loopbackOpenDevice (spec : Option (List Nat))
| captureOpenDevice (spec : Option (List Nat)) (freq : Int) (fmt : Int) (size : Int)
| closeDevice (dev : Nat)
| captureCloseDevice (dev : Nat)
deriving DecidableEq, Repr

/-- Modelled from the spec: the extension keys of `ext::Alc` (a fixed, closed
enumeration; `ext.rs` is not part of `src/`). -/
inductive Alc
| Dedicated
| Disconnect
| Efx
| SoftHrtf
| SoftPauseDevice
deriving DecidableEq, Repr

/-- Modelled from the spec: the per-device `ext::AlcCache`.  Each field holds
the memoized answer of the lazy native presence query for one extension key
(`some` = present with its loaded data, `none` = absent). -/
structure AlcCache where
  dev : Nat
  ALC_EXT_DEDICATED : Option Unit
  ALC_EXT_DISCONNECT : Option Unit
  ALC_EXT_EFX : Option Unit
  ALC_SOFT_HRTF : Option Unit
  ALC_SOFT_pause_device : Option Unit
deriving DecidableEq, Repr

/-- Modelled from the spec: `ext::AlcCache::new(dev)`, a fresh cache for the
device with no extension looked up yet. -/
def AlcCache.new (dev : Nat) : AlcCache :=
  ⟨dev, none, none, none, none, none⟩

/-- Modelled from the spec: the `ALC_ENUMERATE_ALL_EXT` extension data of the
global cache; when the extension is present its enum values are loaded, so the
source's `.unwrap()` on them is total here. -/
structure EnumerateAllExt where
  ALC_DEFAULT_ALL_DEVICES_SPECIFIER : Int
  ALC_ALL_DEVICES_SPECIFIER : Int
deriving DecidableEq, Repr

/-- Responses of the native API consumed by the string-returning operations:
`getString p` is the buffer `alcGetString(null, p)` points at, and `errCode p`
is what the `alcGetError` call immediately after it returns. -/
structure AlcOracle where
  getString : Int → List Nat
  errCode : Int → Int

/-- Modelled from the spec: numeric values of the native specifier parameters
(fixed external contract of the native API, `sys` crate not under `src/`). -/
def ALC_DEFAULT_DEVICE_SPECIFIER : Int := 0x1004

/-- Native parameter naming the full device-specifier list. -/
def ALC_DEVICE_SPECIFIER : Int := 0x1005

/-- Native parameter naming the default capture device specifier. -/
def ALC_CAPTURE_DEFAULT_DEVICE_SPECIFIER : Int := 0x311

/-- Native parameter naming the capture device-specifier list. -/
def ALC_CAPTURE_DEVICE_SPECIFIER : Int := 0x310

/-- Embedding of `pub fn default_impl()`: gate, `alcGetString`, error check.
`init` is the value the `ALC_INIT` access yields. -/
def default_impl (init : AlcResult Unit) (o : AlcOracle) :
    AlcResult (List Nat) × List NEvent :=
  match init with
  | Except.error e => (Except.error e, [])
  | Except.ok () =>
      let p := ALC_DEFAULT_DEVICE_SPECIFIER
      let evs := [NEvent.getString p, NEvent.getError]
      match get_error (o.errCode p) with
      | Except.ok () => (Except.ok (o.getString p), evs)
      | Except.error e => (Except.error e, evs)

/-- Embedding of `pub fn default_output()`: gate, then either the
`ALC_ENUMERATE_ALL_EXT` branch or the `default_impl` fallback.  `enumerateAll`
is what `ext::ALC_CACHE.ALC_ENUMERATE_ALL_EXT()` yields. -/
def default_output (init : AlcResult Unit) (enumerateAll : Option EnumerateAllExt)
    (o : AlcOracle) : AlcResult (List Nat) × List NEvent :=
  match init with
  | Except.error e => (Except.error e, [])
  | Except.ok () =>
      match enumerateAll with
      | some ea =>
          let p := ea.ALC_DEFAULT_ALL_DEVICES_SPECIFIER
          let evs := [NEvent.getString p, NEvent.getError]
          (match get_error (o.errCode p) with
           | Except.ok () => (Except.ok (o.getString p), evs)
           | Except.error e => (Except.error e, evs))
      | none => default_impl (Except.ok ()) o

/-- Embedding of `pub fn default_capture()`. -/
def default_capture (init : AlcResult Unit) (o : AlcOracle) :
    AlcResult (List Nat) × List NEvent :=
  match init with
  | Except.error e => (Except.error e, [])
  | Except.ok () =>
      let p := ALC_CAPTURE_DEFAULT_DEVICE_SPECIFIER
      let evs := [NEvent.getString p, NEvent.getError]
      match get_error (o.errCode p) with
      | Except.ok () => (Except.ok (o.getString p), evs)
      | Except.error e => (Except.error e, evs)

/-- Embedding of `pub fn enumerate_impls()`: gate, `alcGetString`, error
check, then `parse_enum_spec` on the returned buffer (`none` when the parse
does not return normally). -/
def enumerate_impls (init : AlcResult Unit) (o : AlcOracle) :
    Option (AlcResult (List (List Nat)) × List NEvent) :=
  match init with
  | Except.error e => some (Except.error e, [])
  | Except.ok () =>
      let p := ALC_DEVICE_SPECIFIER
      let evs := [NEvent.getString p, NEvent.getError]
      match get_error (o.errCode p) with
      | Except.error e => some (Except.error e, evs)
      | Except.ok () =>
          match parse_enum_spec (Except.ok ()) (o.getString p) with
          | none => none
          | some r => some (r, evs)

/-- Embedding of `pub fn enumerate_outputs()`: the `ALC_ENUMERATE_ALL_EXT`
branch or the `enumerate_impls` fallback. -/
def enumerate_outputs (init : AlcResult Unit) (enumerateAll : Option EnumerateAllExt)
    (o : AlcOracle) : Option (AlcResult (List (List Nat)) × List NEvent) :=
  match init with
  | Except.error e => some (Except.error e, [])
  | Except.ok () =>
      match enumerateAll with
      | some ea =>
          let p := ea.ALC_ALL_DEVICES_SPECIFIER
          let evs := [NEvent.getString p, NEvent.getError]
          (match get_error (o.errCode p) with
           | Except.error e => some (Except.error e, evs)
           | Except.ok () =>
               match parse_enum_spec (Except.ok ()) (o.getString p) with
               | none => none
               | some r => some (r, evs))
      | none => enumerate_impls (Except.ok ()) o

/-- Embedding of `pub fn enumerate_captures()`. -/
def enumerate_captures (init : AlcResult Unit) (o : AlcOracle) :
    Option (AlcResult (List (List Nat)) × List NEvent) :=
  match init with
  | Except.error e => some (Except.error e, [])
  | Except.ok () =>
      let p := ALC_CAPTURE_DEVICE_SPECIFIER
      let evs := [NEvent.getString p, NEvent.getError]
      match get_error (o.errCode p) with
      | Except.error e => some (Except.error e, evs)
      | Except.ok () =>
          match parse_enum_spec (Except.ok ()) (o.getString p) with
          | none => none
          | some r => some (r, evs)

/-- Embedding of `pub struct Device`: a native handle (0 models the null
pointer, never stored on success) and its capability cache (the source's
`Mutex` is the lock around the cache, elided in this sequential model). -/
structure Device where
  dev : Nat
  cache : AlcCache
deriving DecidableEq, Repr

/-- Embedding of `pub struct LoopbackDevice`. -/
structure LoopbackDevice where
  dev : Nat
  cache : AlcCache
deriving DecidableEq, Repr

/-- Embedding of `pub struct CaptureDevice`: handle only, no cache. -/
structure CaptureDevice where
  dev : Nat
deriving DecidableEq, Repr

/-- Embedding of `Device::open`: gate, native `alcOpenDevice` (whose returned
handle is `devRet`, 0 = null), error check (`errCode` is what the following
`alcGetError` returns), then the null-handle check. -/
def Device.«open» (init : AlcResult Unit) (spec : Option (List Nat))
    (devRet : Nat) (errCode : Int) : AlcResult Device × List NEvent :=
  match init with
  | Except.error e => (Except.error e, [])
  | Except.ok () =>
      let evs := [NEvent.openDevice spec, NEvent.getError]
      match get_error errCode with
      | Except.error e => (Except.error e, evs)
      | Except.ok () =>
          if devRet = 0 then (Except.error AlcError.InvalidDevice, evs)
          else (Except.ok ⟨devRet, AlcCache.new devRet⟩, evs)

/-- Embedding of `Device::is_extension_present`.  The global gate state is
passed explicitly in this embedding; the source body never consults it (it
locks the cache and reads the memoized presence answer). -/
def Device.is_extension_present (_init : AlcResult Unit) (d : Device) (x : Alc) : Bool :=
  match x with
  | Alc.Dedicated => d.cache.ALC_EXT_DEDICATED.isSome
  | Alc.Disconnect => d.cache.ALC_EXT_DISCONNECT.isSome
  | Alc.Efx => d.cache.ALC_EXT_EFX.isSome
  | Alc.SoftHrtf => d.cache.ALC_SOFT_HRTF.isSome
  | Alc.SoftPauseDevice => d.cache.ALC_SOFT_pause_device.isSome

/-- Embedding of `impl Drop for Device`: the native calls dropping the handle
performs — exactly one `alcCloseDevice`. -/
def Device.drop (d : Device) : List NEvent :=
  [NEvent.closeDevice d.dev]

/-- Embedding of `LoopbackDevice::open`: gate, then the
`ext::ALC_CACHE.ALC_SOFT_loopback()` lookup (`softLoopback`; `none` = the
loopback extension is absent, mapped to `ExtensionNotPresent` by `ok_or`),
then the native loopback open, error check and null-handle check. -/
def LoopbackDevice.«open» (init : AlcResult Unit) (softLoopback : Option Unit)
    (spec : Option (List Nat)) (devRet : Nat) (errCode : Int) :
    AlcResult LoopbackDevice × List NEvent :=
  match init with
  | Except.error e => (Except.error e, [])
  | Except.ok () =>
      match softLoopback with
      | none => (Except.error AlcError.ExtensionNotPresent, [])
      | some () =>
          let evs := [NEvent.loopbackOpenDevice spec, NEvent.getError]
          match get_error errCode with
          | Except.error e => (Except.error e, evs)
          | Except.ok () =>
              if devRet = 0 then (Except.error AlcError.InvalidDevice, evs)
              else (Except.ok ⟨devRet, AlcCache.new devRet⟩, evs)

/-- Embedding of `LoopbackDevice::is_extension_present` (same body as the
`Device` one; the gate state is passed explicitly and never consulted). -/
def LoopbackDevice.is_extension_present (_init : AlcResult Unit)
    (d : LoopbackDevice) (x : Alc) : Bool :=
  match x with
  | Alc.Dedicated => d.cache.ALC_EXT_DEDICATED.isSome
  | Alc.Disconnect => d.cache.ALC_EXT_DISCONNECT.isSome
  | Alc.Efx => d.cache.ALC_EXT_EFX.isSome
  | Alc.SoftHrtf => d.cache.ALC_SOFT_HRTF.isSome
  | Alc.SoftPauseDevice => d.cache.ALC_SOFT_pause_device.isSome

/-- Embedding of `impl Drop for LoopbackDevice`: exactly one
`alcCloseDevice`. -/
def LoopbackDevice.drop (d : LoopbackDevice) : List NEvent :=
  [NEvent.closeDevice d.dev]

/-- Embedding of `CaptureDevice::open`: gate, the `format.into_raw(None)?`
argument conversion (`fmtRaw` is its result; on its error the `?` operator
routes through the panicking `From<AlError>` conversion, hence `none`), the
native capture open, error check and null-handle check. -/
def CaptureDevice.«open» (init : AlcResult Unit) (spec : Option (List Nat))
    (freq : Int) (fmtRaw : Except AlError Int) (size : Int)
    (devRet : Nat) (errCode : Int) :
    Option (AlcResult CaptureDevice × List NEvent) :=
  match init with
  | Except.error e => some (Except.error e, [])
  | Except.ok () =>
      match fmtRaw with
      | Except.error al => (from_AlError al).map (fun e => (Except.error e, []))
      | Except.ok fmt =>
          let evs := [NEvent.captureOpenDevice spec freq fmt size, NEvent.getError]
          match get_error errCode with
          | Except.error e => some (Except.error e, evs)
          | Except.ok () =>
              if devRet = 0 then some (Except.error AlcError.InvalidDevice, evs)
              else some (Except.ok ⟨devRet⟩, evs)

/-- The source defines no `Drop` impl for `CaptureDevice`, so dropping one
performs no native call (the raw pointer field is dropped without effect). -/
def CaptureDevice.drop (_d : CaptureDevice) : List NEvent :=
  []

/-- Whether an event is a native device-release call. -/
def NEvent.isClose : NEvent → Bool
  | NEvent.closeDevice _ => true
  | NEvent.captureCloseDevice _ => true
  | _ => false

/-- Number of native device-release calls in a trace. -/
def closeCount (t : List NEvent) : Nat :=
  (t.filter NEvent.isClose).length

theorem take_length_append {α : Type} : ∀ (l₁ l₂ : List α), (l₁ ++ l₂).take l₁.length = l₁
  | [], _ => rfl
  | a :: t, l₂ => by
      simp only [List.cons_append, List.length_cons, List.take_succ_cons]
      rw [take_length_append t l₂]

theorem splitOnZero_ne_nil (l : List Nat) : splitOnZero l ≠ [] := by
  cases l with
  | nil => simp [splitOnZero]
  | cons c r =>
      by_cases hc : c = 0
      · simp [splitOnZero, hc]
      · simp only [splitOnZero, if_neg hc]
        cases h : splitOnZero r with
        | nil => simp
        | cons p ps => simp

theorem joinSpecs_splitOnZero (l : List Nat) : joinSpecs (splitOnZero l) = l := by
  induction l with
  | nil => rfl
  | cons c r ih =>
      by_cases hc : c = 0
      · subst hc
        simp only [splitOnZero, if_pos trivial]
        cases h : splitOnZero r with
        | nil => exact absurd h (splitOnZero_ne_nil r)
        | cons p ps =>
            rw [h] at ih
            simpa [joinSpecs] using ih
      · simp only [splitOnZero, if_neg hc]
        cases h : splitOnZero r with
        | nil => exact absurd h (splitOnZero_ne_nil r)
        | cons p ps =>
            rw [h] at ih
            cases ps with
            | nil => simp only [joinSpecs] at ih ⊢; rw [ih]
            | cons q qs =>
                simp only [joinSpecs, List.cons_append] at ih ⊢
                rw [ih]

theorem splitOnZero_no_zero (l : List Nat) : ∀ p ∈ splitOnZero l, (0 : Nat) ∉ p := by
  induction l with
  | nil =>
      intro p hp
      simp [splitOnZero] at hp
      simp [hp]
  | cons c r ih =>
      intro p hp
      by_cases hc : c = 0
      · subst hc
        simp only [splitOnZero, if_pos trivial] at hp
        rcases List.mem_cons.mp hp with h | h
        · simp [h]
        · exact ih p h
      · simp only [splitOnZero, if_neg hc] at hp
        cases h : splitOnZero r with
        | nil => exact absurd h (splitOnZero_ne_nil r)
        | cons q qs =>
            rw [h] at hp
            rcases List.mem_cons.mp hp with h1 | h1
            · subst h1
              intro h0
              rcases List.mem_cons.mp h0 with h2 | h2
              · exact hc h2.symm
              · exact ih q (by rw [h]; exact List.mem_cons_self q qs) h2
            · exact ih p (by rw [h]; exact List.mem_cons_of_mem _ h1)

theorem collectSpecs_eq (ps : List (List Nat)) (h : ∀ p ∈ ps, (0 : Nat) ∉ p) :
    collectSpecs ps = some ps := by
  induction ps with
  | nil => rfl
  | cons d ds ih =>
      have hd : (0 : Nat) ∉ d := h d (List.mem_cons_self d ds)
      have hds := ih (fun p hp => h p (List.mem_cons_of_mem _ hp))
      simp [collectSpecs, cstring_new, hd, hds]

theorem findTerminator_cons (a : Nat) (ha : a ≠ 0) (l : List Nat) :
    findTerminator (a :: l) = (findTerminator l).map (fun n => n + 1) := by
  cases l with
  | nil => rfl
  | cons b r =>
      simp only [findTerminator]
      rw [if_neg]
      intro h
      exact ha h.1

theorem findTerminator_append (l : List Nat) (n : Nat) (hl : findTerminator l = some n) :
    ∀ s : List Nat, (0 : Nat) ∉ s → findTerminator (s ++ l) = some (n + s.length)
  | [], _ => by simpa using hl
  | a :: t, hs => by
      have ha : a ≠ 0 := fun h => hs (by simp [h])
      have ih := findTerminator_append l n hl t (fun h => hs (List.mem_cons_of_mem _ h))
      rw [List.cons_append, findTerminator_cons a ha, ih]
      simp only [Option.map_some', List.length_cons, Option.some.injEq]
      omega

theorem joinSpecs_cons_cons (c : Nat) (t' : List Nat) (ss : List (List Nat)) :
    ∃ r : List Nat, joinSpecs ((c :: t') :: ss) = c :: r := by
  cases ss with
  | nil => exact ⟨t', rfl⟩
  | cons u us => exact ⟨t' ++ 0 :: joinSpecs (u :: us), rfl⟩

theorem findTerminator_join :
    ∀ ss : List (List Nat), (∀ s ∈ ss, s ≠ [] ∧ (0 : Nat) ∉ s) →
      findTerminator (joinSpecs ss ++ [0, 0]) = some (joinSpecs ss).length
  | [], _ => by rfl
  | [s], h => by
      have hs := h s (List.mem_cons_self s [])
      have := findTerminator_append [0, 0] 0 rfl s hs.2
      simpa [joinSpecs] using this
  | s :: t :: ss, h => by
      have hs := h s (by simp)
      have ht := h t (by simp)
      have hrec := findTerminator_join (t :: ss) (fun u hu => h u (List.mem_cons_of_mem _ hu))
      obtain ⟨c, t', rfl⟩ : ∃ c t', t = c :: t' := by
        cases t with
        | nil => exact absurd rfl ht.1
        | cons c t' => exact ⟨c, t', rfl⟩
      have hc : c ≠ 0 := fun h0 => ht.2 (by simp [h0])
      obtain ⟨r, hr⟩ := joinSpecs_cons_cons c t' ss
      have hinner :
          findTerminator (0 :: (joinSpecs ((c :: t') :: ss) ++ [0, 0])) =
            some ((joinSpecs ((c :: t') :: ss)).length + 1) := by
        rw [hr]
        simp only [List.cons_append, findTerminator]
        rw [if_neg (fun hh => hc hh.2)]
        have : findTerminator (c :: (r ++ [0, 0])) = some ((c :: r).length) := by
          have := hrec
          rw [hr] at this
          simpa using this
        simp only [List.append_eq]
        rw [this]
        simp [hr]
      have happ := findTerminator_append (0 :: (joinSpecs ((c :: t') :: ss) ++ [0, 0]))
        ((joinSpecs ((c :: t') :: ss)).length + 1) hinner s hs.2
      have hshape :
          joinSpecs (s :: (c :: t') :: ss) ++ [0, 0] =
            s ++ (0 :: (joinSpecs ((c :: t') :: ss) ++ [0, 0])) := by
        simp [joinSpecs]
      rw [hshape, happ]
      simp [joinSpecs]
      omega

/-- Claim C1 (code evaluation at the failing input): dropping a `Device` or a
`LoopbackDevice` performs exactly one native release call, but dropping a
`CaptureDevice` performs none — the source defines no `Drop` impl for
`CaptureDevice`, so a successfully opened capture handle is never released. -/
theorem capture_drop_never_releases :
    closeCount (Device.drop ⟨7, AlcCache.new 7⟩) = 1 ∧
      closeCount (LoopbackDevice.drop ⟨7, AlcCache.new 7⟩) = 1 ∧
      closeCount (CaptureDevice.drop ⟨7⟩) = 0 ∧
      (CaptureDevice.«open» (Except.ok ()) none 44100 (Except.ok 1) 1024 7 0).map
          (fun r => closeCount r.2) = some 0 :=
  ⟨rfl, rfl, rfl, rfl⟩

/-- Claim C2 (code evaluation at the failing input): on a buffer whose first
two bytes are zero, `parse_enum_spec` returns a one-element sequence holding
the empty string — not the empty sequence the claim states. -/
theorem parse_empty_buffer_value :
    parse_enum_spec (Except.ok ()) [0, 0] = some (Except.ok [[]]) ∧
      ([[]] : List (List Nat)) ≠ [] := by
  exact ⟨rfl, by simp⟩

/-- Claim C3: for every buffer built by joining zero-free, non-empty specifier
strings with single zero separators and terminating with a double zero,
parsing and re-joining the parsed sequence the same way reproduces the
original buffer exactly. -/
theorem parse_roundtrip (ss : List (List Nat))
    (h : ∀ s ∈ ss, s ≠ [] ∧ (0 : Nat) ∉ s) :
    ∃ out, parse_enum_spec (Except.ok ()) (joinSpecs ss ++ [0, 0]) = some (Except.ok out) ∧
      joinSpecs out ++ [0, 0] = joinSpecs ss ++ [0, 0] := by
  refine ⟨splitOnZero (joinSpecs ss), ?_, ?_⟩
  · have hterm := findTerminator_join ss h
    have htake : (joinSpecs ss ++ [0, 0]).take (joinSpecs ss).length = joinSpecs ss :=
      take_length_append _ _
    have hcol := collectSpecs_eq (splitOnZero (joinSpecs ss)) (splitOnZero_no_zero (joinSpecs ss))
    simp [parse_enum_spec, hterm, htake, hcol]
  · rw [joinSpecs_splitOnZero]

/-- Witness for the round-trip theorem at the concrete buffer holding the two
strings `a` and `bc`. -/
theorem parse_roundtrip_witness :
    ∃ out, parse_enum_spec (Except.ok ()) (joinSpecs [[97], [98, 99]] ++ [0, 0]) =
        some (Except.ok out) ∧
      joinSpecs out ++ [0, 0] = joinSpecs [[97], [98, 99]] ++ [0, 0] :=
  parse_roundtrip [[97], [98, 99]] (by decide)

/-- Claim C4: in each of the three open operations, a null native handle
combined with an error-state read that reported success yields
`InvalidDevice`. -/
theorem open_null_handle_invalid_device :
    (∀ spec : Option (List Nat),
        (Device.«open» (Except.ok ()) spec 0 ALC_NO_ERROR).1 =
          Except.error AlcError.InvalidDevice) ∧
    (∀ spec : Option (List Nat),
        (LoopbackDevice.«open» (Except.ok ()) (some ()) spec 0 ALC_NO_ERROR).1 =
          Except.error AlcError.InvalidDevice) ∧
    (∀ (spec : Option (List Nat)) (freq fmt size : Int),
        (CaptureDevice.«open» (Except.ok ()) spec freq (Except.ok fmt) size 0
              ALC_NO_ERROR).map Prod.fst =
          some (Except.error AlcError.InvalidDevice)) :=
  ⟨fun _ => rfl, fun _ => rfl, fun _ _ _ _ => rfl⟩

/-- Claim C5: for every input specifier, when the loopback extension is absent
from the global capability cache (and the gate passed), `LoopbackDevice` open
returns `ExtensionNotPresent` with an empty native trace — in particular no
native open call is attempted. -/
theorem loopback_open_ext_absent :
    ∀ (spec : Option (List Nat)) (devRet : Nat) (errCode : Int),
      LoopbackDevice.«open» (Except.ok ()) none spec devRet errCode =
        (Except.error AlcError.ExtensionNotPresent, []) :=
  fun _ _ _ => rfl

/-- Claim C6: the version gate succeeds exactly on major = 1 with minor ≥ 1,
every other pair yields `UnsupportedVersion`, the first access to the lazy
cell computes and stores the gate result, and every access to a filled cell
returns the stored value without querying the native API again. -/
theorem version_gate_spec :
    (∀ major minor : Int,
        alc_init_compute major minor = Except.ok () ↔ (major = 1 ∧ 1 ≤ minor)) ∧
    (∀ major minor : Int, ¬(major = 1 ∧ 1 ≤ minor) →
        alc_init_compute major minor = Except.error AlcError.UnsupportedVersion) ∧
    (∀ major minor : Int,
        initAccess none major minor =
          (alc_init_compute major minor, some (alc_init_compute major minor), true)) ∧
    (∀ (v : AlcResult Unit) (major minor : Int),
        initAccess (some v) major minor = (v, some v, false)) := by
  refine ⟨?_, ?_, fun _ _ => rfl, fun _ _ _ => rfl⟩
  · intro major minor
    by_cases hcond : major = 1 ∧ 1 ≤ minor
    · simp [alc_init_compute, hcond]
    · simp [alc_init_compute, hcond]
  · intro major minor hcond
    simp [alc_init_compute, hcond]

/-- Witness: the gate concretely rejects native versions (0, 5) and accepts
(1, 1). -/
theorem version_gate_spec_witness :
    alc_init_compute 0 5 = Except.error AlcError.UnsupportedVersion ∧
      alc_init_compute 1 1 = Except.ok () :=
  ⟨version_gate_spec.2.1 0 5 (by decide), (version_gate_spec.1 1 1).mpr (by decide)⟩

/-- Counterexample to claim C7: the extension-presence query does not evaluate
the version gate — invoked with the gate failed it still answers the
capability query (true here), exactly as it does with the gate passed, instead
of surfacing `UnsupportedVersion`. -/
theorem is_extension_present_ignores_gate :
    Device.is_extension_present (Except.error AlcError.UnsupportedVersion)
        ⟨1, ⟨1, none, none, some (), none, none⟩⟩ Alc.Efx = true ∧
      Device.is_extension_present (Except.error AlcError.UnsupportedVersion)
          ⟨1, ⟨1, none, none, some (), none, none⟩⟩ Alc.Efx =
        Device.is_extension_present (Except.ok ())
          ⟨1, ⟨1, none, none, some (), none, none⟩⟩ Alc.Efx :=
  ⟨rfl, rfl⟩

/-- Claim C7 (amended): every fallible public operation — the default-specifier
getters, the enumeration functions and the three opens — evaluates the version
gate before any native work and returns its failure unchanged with an empty
native trace; the extension-presence queries, by contrast, never consult the
gate: their answer is independent of its state. -/
theorem public_ops_gate_first :
    (∀ (e : AlcError) (o : AlcOracle),
        default_impl (Except.error e) o = (Except.error e, [])) ∧
    (∀ (e : AlcError) (ea : Option EnumerateAllExt) (o : AlcOracle),
        default_output (Except.error e) ea o = (Except.error e, [])) ∧
    (∀ (e : AlcError) (o : AlcOracle),
        default_capture (Except.error e) o = (Except.error e, [])) ∧
    (∀ (e : AlcError) (o : AlcOracle),
        enumerate_impls (Except.error e) o = some (Except.error e, [])) ∧
    (∀ (e : AlcError) (ea : Option EnumerateAllExt) (o : AlcOracle),
        enumerate_outputs (Except.error e) ea o = some (Except.error e, [])) ∧
    (∀ (e : AlcError) (o : AlcOracle),
        enumerate_captures (Except.error e) o = some (Except.error e, [])) ∧
    (∀ (e : AlcError) (spec : Option (List Nat)) (devRet : Nat) (errCode : Int),
        Device.«open» (Except.error e) spec devRet errCode = (Except.error e, [])) ∧
    (∀ (e : AlcError) (sl : Option Unit) (spec : Option (List Nat)) (devRet : Nat)
        (errCode : Int),
        LoopbackDevice.«open» (Except.error e) sl spec devRet errCode =
          (Except.error e, [])) ∧
    (∀ (e : AlcError) (spec : Option (List Nat)) (freq : Int)
        (fmtRaw : Except AlError Int) (size : Int) (devRet : Nat) (errCode : Int),
        CaptureDevice.«open» (Except.error e) spec freq fmtRaw size devRet errCode =
          some (Except.error e, [])) ∧
    (∀ (init₁ init₂ : AlcResult Unit) (d : Device) (x : Alc),
        Device.is_extension_present init₁ d x = Device.is_extension_present init₂ d x) ∧
    (∀ (init₁ init₂ : AlcResult Unit) (d : LoopbackDevice) (x : Alc),
        LoopbackDevice.is_extension_present init₁ d x =
          LoopbackDevice.is_extension_present init₂ d x) :=
  ⟨fun _ _ => rfl, fun _ _ _ => rfl, fun _ _ => rfl, fun _ _ => rfl, fun _ _ _ => rfl,
   fun _ _ => rfl, fun _ _ _ _ => rfl, fun _ _ _ _ _ => rfl, fun _ _ _ _ _ _ _ => rfl,
   fun _ _ _ _ => rfl, fun _ _ _ _ => rfl⟩

/-- Claim C8: the error translator is `Ok` exactly on the no-error code, maps
each of the five recognized non-zero codes to its corresponding member, and
maps every other non-zero code to `UnknownError`. -/
theorem get_error_translation :
    (∀ code : Int, get_error code = Except.ok () ↔ code = ALC_NO_ERROR) ∧
    get_error ALC_INVALID_DEVICE = Except.error AlcError.InvalidDevice ∧
    get_error ALC_INVALID_CONTEXT = Except.error AlcError.InvalidContext ∧
    get_error ALC_INVALID_ENUM = Except.error AlcError.InvalidEnum ∧
    get_error ALC_INVALID_VALUE = Except.error AlcError.InvalidValue ∧
    get_error ALC_OUT_OF_MEMORY = Except.error AlcError.OutOfMemory ∧
    (∀ code : Int, code ≠ ALC_NO_ERROR → code ≠ ALC_INVALID_DEVICE →
        code ≠ ALC_INVALID_CONTEXT → code ≠ ALC_INVALID_ENUM →
        code ≠ ALC_INVALID_VALUE → code ≠ ALC_OUT_OF_MEMORY →
        get_error code = Except.error AlcError.UnknownError) := by
  refine ⟨?_, rfl, rfl, rfl, rfl, rfl, ?_⟩
  · intro code
    by_cases hc : code = ALC_NO_ERROR
    · simp [get_error, hc]
    · simp [get_error, hc]
  · intro code h0 h1 h2 h3 h4 h5
    simp [get_error, alcError_of_enum, h0, h1, h2, h3, h4, h5]

/-- Witness: the unrecognized non-zero code 7 concretely translates to
`UnknownError`. -/
theorem get_error_translation_witness :
    get_error 7 = Except.error AlcError.UnknownError :=
  get_error_translation.2.2.2.2.2.2 7 (by decide) (by decide) (by decide) (by decide)
    (by decide) (by decide)

/-- Claim C9: the nested-error conversion panics unconditionally on every
input, and it is the only panic path: the parser returns normally on every
double-zero-terminated buffer (the `CString` unwrap never fires), the capture
open returns normally whenever the format conversion succeeds, and the only
panicking execution of capture open is the one routed through the
`From AlError` conversion. -/
theorem panic_only_in_from_alerror :
    (∀ al : AlError, from_AlError al = none) ∧
    (∀ (init : AlcResult Unit) (buf : List Nat) (i : Nat),
        findTerminator buf = some i → (parse_enum_spec init buf).isSome = true) ∧
    (∀ (spec : Option (List Nat)) (freq fmt size : Int) (devRet : Nat) (errCode : Int),
        (CaptureDevice.«open» (Except.ok ()) spec freq (Except.ok fmt) size devRet
            errCode).isSome = true) ∧
    (∀ (spec : Option (List Nat)) (freq : Int) (al : AlError) (size : Int)
        (devRet : Nat) (errCode : Int),
        CaptureDevice.«open» (Except.ok ()) spec freq (Except.error al) size devRet
            errCode = none) := by
  refine ⟨fun _ => rfl, ?_, ?_, fun _ _ _ _ _ _ => rfl⟩
  · intro init buf i hterm
    cases init with
    | error e => rfl
    | ok u =>
        cases u
        simp [parse_enum_spec, hterm,
          collectSpecs_eq _ (splitOnZero_no_zero (buf.take i))]
  · intro spec freq fmt size devRet errCode
    cases hge : get_error errCode with
    | error e => simp [CaptureDevice.«open», hge]
    | ok u =>
        cases u
        by_cases h0 : devRet = 0 <;> simp [CaptureDevice.«open», hge, h0]

/-- Witness: the parser concretely returns normally on the terminated buffer
`[97, 0, 0]`. -/
theorem panic_only_in_from_alerror_witness :
    (parse_enum_spec (Except.ok ()) [97, 0, 0]).isSome = true :=
  panic_only_in_from_alerror.2.1 (Except.ok ()) [97, 0, 0] 1 (by decide)

/-- Claim C10: with the ENUMERATE_ALL extension absent from the global cache,
`default_output` is exactly `default_impl` and `enumerate_outputs` is exactly
`enumerate_impls`. -/
theorem enumerate_all_fallback :
    ∀ (init : AlcResult Unit) (o : AlcOracle),
      default_output init none o = default_impl init o ∧
        enumerate_outputs init none o = enumerate_impls init o := by
  intro init o
  cases init with
  | error e => exact ⟨rfl, rfl⟩
  | ok u => cases u; exact ⟨rfl, rfl⟩
